import Mathlib

/-!
Verification development for the `human` perception library.

The numeric model uses `ℚ` for the JavaScript floating-point values (scores,
normalized coordinates) and `ℕ`/`ℤ` for counters, sizes and truncated pixel
coordinates.  Stateful modules (the nanodet frame-skip cache, the model
registry, the orchestrator's performance record) are embedded as explicit
state-passing functions.  External collaborators that the repository only
calls (the tfjs runtime, the image pre-processor, the gesture rule matcher)
appear as parameters or are modelled from the specification where noted.
-/

set_option maxHeartbeats 1000000

namespace Nanodet

/-- JavaScript `Math.trunc` on a rational: round toward zero, yielding an integer. -/
def jsTrunc (q : ℚ) : ℤ := if 0 ≤ q then ⌊q⌋ else ⌈q⌉

/-- `Math.max(0, Math.min(a, 1))` — the out-of-bounds fix of nanodet.ts line 51. -/
def clamp01 (q : ℚ) : ℚ := max 0 (min q 1)

/-- `scaleBox = 2.5` (nanodet.ts line 10): fixed box enlargement constant. -/
def scaleBox : ℚ := 5 / 2

/-- Accumulator loop for `argmax`: scan the remaining list (whose head sits at
position `i` of the full list), keeping the index `bi` and value `bv` of the best
element seen so far; a later element replaces the best only when strictly greater,
which is tf.js `argMax` semantics (first occurrence of the maximum wins). -/
def argmaxAux : List ℚ → ℕ → ℕ → ℚ → ℕ
  | [], _, bi, _ => bi
  | x :: xs, i, bi, bv => if bv < x then argmaxAux xs (i + 1) i x else argmaxAux xs (i + 1) bi bv

/-- Index of the first maximal element of a list (`tensor.argMax` along an axis,
applied to one slice); `0` on the empty list. -/
def argmax : List ℚ → ℕ
  | [] => 0
  | x :: xs => argmaxAux xs 1 0 x

/-- The four row-major groups produced by
`featuresT.reshape([-1, 4, featuresT.shape[1] / 4])` (nanodet.ts line 32) for a
single grid cell: a feature row of length `F` is split into 4 consecutive chunks
of length `F / 4`, one per box edge. -/
def groups4 (row : List ℚ) : List (List ℚ) :=
  let g := row.length / 4
  [(row.drop 0).take g, (row.drop g).take g, (row.drop (2 * g)).take g, (row.drop (3 * g)).take g]

/-- `boxesMax.argMax(2)` restricted to one grid cell (nanodet.ts lines 32–33): the
four per-edge indices of the maximal feature in each group.  The source keeps these
indices — not the maximal values — as the discretized regression offsets. -/
def boxIdxRow (row : List ℚ) : List ℕ := (groups4 row).map argmax

/-- One detection candidate as assembled in nanodet.ts lines 58–68.  `cls` is the
source's `class` field (a reserved word in Lean). -/
structure Candidate where
  id : ℕ
  strideSize : ℕ
  score : ℚ
  cls : ℕ
  label : String
  center : List ℤ
  centerRaw : List ℚ
  box : List ℤ
  boxRaw : List ℚ
deriving DecidableEq, Repr

/-- The candidate record built for grid cell `i` and class `j` (nanodet.ts
lines 39–68): cell center from the cell's row/column inside the `baseSize` grid,
box edges offset from the center by `scaleBox / strideSize * boxOffset`, where
`boxOffset` multiplies the per-edge argmax index by `baseSize / strideSize /
inputSize`; the normalized box is clamped to [0,1] before being scaled to pixels
by `outputShape = (out0, out1)`.  The `id` field is filled in afterwards by
emission order (the source increments a shared counter). -/
def mkCandidate (labels : List String) (strideSize inputSize out0 out1 : ℕ)
    (boxIdxAll : List (List ℕ)) (i j : ℕ) (score : ℚ) : Candidate :=
  let baseSize := strideSize * 13
  let cx : ℚ := ((1 : ℚ) / 2 + ((i % baseSize : ℕ) : ℚ)) / (baseSize : ℚ)
  let cy : ℚ := ((1 : ℚ) / 2 + ((i / baseSize : ℕ) : ℚ)) / (baseSize : ℚ)
  let boxOffset : List ℚ :=
    (boxIdxAll.getD i []).map (fun a => (a : ℚ) * ((baseSize : ℚ) / (strideSize : ℚ) / (inputSize : ℚ)))
  let x := cx - scaleBox / (strideSize : ℚ) * boxOffset.getD 0 0
  let y := cy - scaleBox / (strideSize : ℚ) * boxOffset.getD 1 0
  let w := cx + scaleBox / (strideSize : ℚ) * boxOffset.getD 2 0 - x
  let h := cy + scaleBox / (strideSize : ℚ) * boxOffset.getD 3 0 - y
  let boxRaw := [x, y, w, h].map clamp01
  let box : List ℚ := [boxRaw.getD 0 0 * (out0 : ℚ), boxRaw.getD 1 0 * (out1 : ℚ),
    boxRaw.getD 2 0 * (out0 : ℚ), boxRaw.getD 3 0 * (out1 : ℚ)]
  { id := 0
    strideSize := strideSize
    score := score
    cls := j + 1
    label := labels.getD j ""
    center := [jsTrunc ((out0 : ℚ) * cx), jsTrunc ((out1 : ℚ) * cy)]
    centerRaw := [cx, cy]
    box := box.map jsTrunc
    boxRaw := boxRaw }

/-- The per-stride body of `process` (nanodet.ts lines 27–73) applied to the two
tensors found for one stride, after the squeeze: `scores` has one row per grid cell
and one column per class, `features` the matching regression rows.  A candidate is
emitted for every cell `i` and class `j` with `score > minConfidence` and `j ≠ 61`
(the excluded background class); ids are assigned sequentially from `id0` in
emission order. -/
def strideDecode (labels : List String) (minConfidence : ℚ) (strideSize inputSize out0 out1 : ℕ)
    (scores features : List (List ℚ)) (id0 : ℕ) : List Candidate :=
  let boxIdxAll := features.map boxIdxRow
  let raw := scores.enum.flatMap fun p =>
    p.2.enum.filterMap fun q =>
      if minConfidence < q.2 ∧ q.1 ≠ 61 then
        some (mkCandidate labels strideSize inputSize out0 out1 boxIdxAll p.1 q.1 q.2)
      else none
  raw.enum.map fun p => { p.2 with id := id0 + p.1 }

/-! ### Non-max suppression

The selection loop itself lives in the external tfjs runtime
(`tf.image.nonMaxSuppressionAsync`, nanodet.ts line 84); only the surrounding
filter-and-sort is repository code.  The loop is therefore modelled from the
specification (§4.2). -/

/-- Lower corner of a box along axis `k` (`k = 0` or `1`): the runtime normalizes
the two coordinates of each axis with min/max, so corner order does not matter. -/
def boxLo (a : List ℚ) (k : ℕ) : ℚ := min (a.getD k 0) (a.getD (k + 2) 0)

/-- Upper corner of a box along axis `k`. -/
def boxHi (a : List ℚ) (k : ℕ) : ℚ := max (a.getD k 0) (a.getD (k + 2) 0)

/-- Area of a box given as four coordinates. -/
def boxArea (a : List ℚ) : ℚ := (boxHi a 0 - boxLo a 0) * (boxHi a 1 - boxLo a 1)

/-- Length of the overlap of two boxes along axis `k`, clamped at 0. -/
def interLen (a b : List ℚ) (k : ℕ) : ℚ :=
  max 0 (min (boxHi a k) (boxHi b k) - max (boxLo a k) (boxLo b k))

/-- Area of the intersection of two boxes. -/
def intersectionArea (a b : List ℚ) : ℚ := interLen a b 0 * interLen a b 1

/-- Modelled from the spec: intersection-over-union of two boxes (glossary of the
spec; the concrete routine is `tf.image.nonMaxSuppressionAsync`'s IoU, which is in
the external tfjs runtime, not in this repository).  Degenerate boxes give 0. -/
def iou (a b : List ℚ) : ℚ :=
  if boxArea a ≤ 0 ∨ boxArea b ≤ 0 then 0
  else intersectionArea a b / (boxArea a + boxArea b - intersectionArea a b)

/-- Modelled from the spec: the greedy selection loop of non-max suppression
(§4.2): repeatedly select the first of the remaining candidates (already sorted by
descending score), discard every remaining candidate whose IoU with the selected
box reaches `iouThreshold`, and stop when `budget` (= `maxResults`) selections have
been made or the candidates are exhausted.  Arguments are indices into `boxes`. -/
def greedy (boxes : List (List ℚ)) (iouThreshold : ℚ) : ℕ → List ℕ → List ℕ
  | 0, _ => []
  | _ + 1, [] => []
  | budget + 1, i :: rest =>
      i :: greedy boxes iouThreshold budget
        (rest.filter fun j => decide (iou (boxes.getD i []) (boxes.getD j []) < iouThreshold))

/-- Ordering used for descending-score sorts (the JS comparator
`(a, b) => b.score - a.score`). -/
def scoreGE (a b : Candidate) : Prop := b.score ≤ a.score

instance : DecidableRel scoreGE := fun a b => inferInstanceAs (Decidable (b.score ≤ a.score))

instance : IsTotal Candidate scoreGE := ⟨fun a b => le_total b.score a.score⟩

instance : IsTrans Candidate scoreGE := ⟨fun _ _ _ hab hbc => le_trans hbc hab⟩

/-- Modelled from the spec: `tf.image.nonMaxSuppressionAsync(boxes, scores,
maxResults, iouThreshold, scoreThreshold)` (external tfjs runtime; §4.2 and §6 of
the spec): drop candidates at or below the score threshold, sort the remainder by
descending score, and run the greedy selection.  Returns the selected indices in
selection order. -/
def nonMaxSuppression (boxes : List (List ℚ)) (scores : List ℚ) (maxResults : ℕ)
    (iouThreshold scoreThreshold : ℚ) : List ℕ :=
  let cand := (List.range boxes.length).filter fun i => decide (scoreThreshold < scores.getD i 0)
  let sorted := List.insertionSort (fun i j => scores.getD j 0 ≤ scores.getD i 0) cand
  greedy boxes iouThreshold maxResults sorted

/-- The filter-and-sort stage of `process` (nanodet.ts lines 78–94): run NMS on the
candidates' normalized boxes and raw scores (only when there is at least one box),
keep the candidates whose index was selected, and sort the survivors by descending
score. -/
def suppress (results : List Candidate) (maxResults : ℕ) (iouThreshold minConfidence : ℚ) :
    List Candidate :=
  let nmsBoxes := results.map (·.boxRaw)
  let nmsScores := results.map (·.score)
  let nmsIdx : List ℕ :=
    if 0 < nmsBoxes.length then
      nonMaxSuppression nmsBoxes nmsScores maxResults iouThreshold minConfidence
    else []
  List.insertionSort scoreGE ((results.enum.filter fun p => decide (p.1 ∈ nmsIdx)).map Prod.snd)

/-! ### The object pipeline's frame-skip cache (nanodet.ts lines 6–8 and 97–128) -/

/-- JavaScript `Number.MAX_SAFE_INTEGER`, the initial and video-disabled value of
the `skipped` counter. -/
def maxSafeInteger : ℕ := 2 ^ 53 - 1

/-- The mutable module state of nanodet.ts: the cached last result `last` and the
frame-skip counter `skipped`.  The element type is abstract: `predict` never
inspects individual detections. -/
structure CacheState (α : Type) where
  last : List α
  skipped : ℕ
deriving DecidableEq, Repr

/-- The state as of module load (nanodet.ts lines 7–8). -/
def initialCache (α : Type) : CacheState α := ⟨[], maxSafeInteger⟩

/-- One call to `predict` (nanodet.ts lines 97–128), for the path the orchestrator
exercises (`config.object.enabled`, no profiling).  The resize/normalize/execute/
`process` chain is abstracted as its outcome `decode`, the decoded detections of
this frame; the third component counts model executions performed by the call.
If no model is loaded the call returns `null` untouched.  If the frame-skip branch
applies, the counter is incremented and the cached result returned; otherwise the
counter is reset (to 0 under `videoOptimized`, to the always-decode sentinel
otherwise), a real decode runs, and its result is cached and returned. -/
def predictStep {α : Type} (modelLoaded videoOptimized : Bool) (skipFrames : ℕ)
    (decode : List α) (s : CacheState α) : Option (List α) × CacheState α × ℕ :=
  if !modelLoaded then (none, s, 0)
  else if s.skipped < skipFrames ∧ videoOptimized = true ∧ 0 < s.last.length then
    (some s.last, ⟨s.last, s.skipped + 1⟩, 0)
  else
    let sk := if videoOptimized then 0 else maxSafeInteger
    (some decode, ⟨decode, sk⟩, 1)

/-- The per-call model-execution counts of a sequence of `predict` calls (model
loaded), frame `k` decoding to `ds[k]` when a real decode runs. -/
def predictTrace {α : Type} (videoOptimized : Bool) (skipFrames : ℕ) :
    List (List α) → CacheState α → List ℕ
  | [], _ => []
  | d :: ds, s =>
      (predictStep true videoOptimized skipFrames d s).2.2 ::
        predictTrace videoOptimized skipFrames ds (predictStep true videoOptimized skipFrames d s).2.1

/-- `load` of the nanodet module (nanodet.ts lines 12–20): the module-level handle
is created only when absent.  The state is whether a handle is held; the second
component is the number of underlying `loadGraphModel` calls performed. -/
def load (model : Bool) : Bool × ℕ := if model then (model, 0) else (true, 1)

end Nanodet

namespace Human

/-- JavaScript `String.prototype.includes`: substring containment, used to select
the body-model variant from the configured model path. -/
def strIncludes (s pat : String) : Bool :=
  (List.range (s.toList.length + 1)).any fun k => pat.toList.isPrefixOf (s.toList.drop k)

/-- The face sub-configuration options the orchestrator reads. -/
structure FaceConfig where
  (enabled ageEnabled genderEnabled emotionEnabled embeddingEnabled descriptionEnabled : Bool)
deriving DecidableEq, Repr

/-- The body sub-configuration: enablement and the model path that selects one of
the three body variants. -/
structure BodyConfig where
  enabled : Bool
  modelPath : String
deriving DecidableEq, Repr

/-- The hand sub-configuration. -/
structure HandConfig where
  enabled : Bool
deriving DecidableEq, Repr

/-- The object-detection sub-configuration. -/
structure ObjectConfig where
  enabled : Bool
  (minConfidence iouThreshold : ℚ)
  (maxResults skipFrames : ℕ)
deriving DecidableEq, Repr

/-- The gesture sub-configuration. -/
structure GestureConfig where
  enabled : Bool
deriving DecidableEq, Repr

/-- The per-call configuration snapshot: the recognized options the orchestrator
and the object pipeline read. -/
structure Config where
  (async videoOptimized scopedBuffers debug : Bool)
  face : FaceConfig
  body : BodyConfig
  hand : HandConfig
  object : ObjectConfig
  gesture : GestureConfig
deriving DecidableEq, Repr

/-- The model registry `this.models` (index.ts lines 167–180): one handle slot per
capability; `true` when a handle is held. -/
structure Models where
  (face age gender emotion embedding handpose posenet blazepose efficientpose nanodet faceres : Bool)
deriving DecidableEq, Repr

/-- The registry as built by the constructor: every slot `null`. -/
def emptyModels : Models :=
  ⟨false, false, false, false, false, false, false, false, false, false, false⟩

/-- Whether the configuration asks for each capability's model (the conditions of
index.ts lines 279–302; the async and sync branches of `Human.load` test the same
conditions). -/
def wantsFace (cfg : Config) : Bool := cfg.face.enabled
def wantsAge (cfg : Config) : Bool := cfg.face.enabled && cfg.face.ageEnabled
def wantsGender (cfg : Config) : Bool := cfg.face.enabled && cfg.face.genderEnabled
def wantsEmotion (cfg : Config) : Bool := cfg.face.enabled && cfg.face.emotionEnabled
def wantsEmbedding (cfg : Config) : Bool := cfg.face.enabled && cfg.face.embeddingEnabled
def wantsHandpose (cfg : Config) : Bool := cfg.hand.enabled
def wantsPosenet (cfg : Config) : Bool := cfg.body.enabled && strIncludes cfg.body.modelPath "posenet"
def wantsBlazepose (cfg : Config) : Bool := cfg.body.enabled && strIncludes cfg.body.modelPath "blazepose"
def wantsEfficientpose (cfg : Config) : Bool :=
  cfg.body.enabled && strIncludes cfg.body.modelPath "efficientpose"
def wantsNanodet (cfg : Config) : Bool := cfg.object.enabled
def wantsFaceres (cfg : Config) : Bool := cfg.face.enabled && cfg.face.descriptionEnabled

/-- Number of capabilities the configuration enables (one underlying model each). -/
def enabledCount (cfg : Config) : ℕ :=
  (if wantsFace cfg then 1 else 0) + (if wantsAge cfg then 1 else 0) +
  (if wantsGender cfg then 1 else 0) + (if wantsEmotion cfg then 1 else 0) +
  (if wantsEmbedding cfg then 1 else 0) + (if wantsHandpose cfg then 1 else 0) +
  (if wantsPosenet cfg then 1 else 0) + (if wantsBlazepose cfg then 1 else 0) +
  (if wantsEfficientpose cfg then 1 else 0) + (if wantsNanodet cfg then 1 else 0) +
  (if wantsFaceres cfg then 1 else 0)

/-- `Human.load` (index.ts lines 246–312) restricted to its effect on the model
registry: each enabled capability whose slot is empty gets its model loaded
(`this.models.x = this.models.x || (cond ? x.load(config) : null)`); an existing
handle is reused.  Returns the updated registry and the number of underlying model
loads performed by this call. -/
def load (cfg : Config) (m : Models) : Models × ℕ :=
  (⟨m.face || wantsFace cfg, m.age || wantsAge cfg, m.gender || wantsGender cfg,
    m.emotion || wantsEmotion cfg, m.embedding || wantsEmbedding cfg,
    m.handpose || wantsHandpose cfg, m.posenet || wantsPosenet cfg,
    m.blazepose || wantsBlazepose cfg, m.efficientpose || wantsEfficientpose cfg,
    m.nanodet || wantsNanodet cfg, m.faceres || wantsFaceres cfg⟩,
   (if !m.face && wantsFace cfg then 1 else 0) + (if !m.age && wantsAge cfg then 1 else 0) +
   (if !m.gender && wantsGender cfg then 1 else 0) +
   (if !m.emotion && wantsEmotion cfg then 1 else 0) +
   (if !m.embedding && wantsEmbedding cfg then 1 else 0) +
   (if !m.handpose && wantsHandpose cfg then 1 else 0) +
   (if !m.posenet && wantsPosenet cfg then 1 else 0) +
   (if !m.blazepose && wantsBlazepose cfg then 1 else 0) +
   (if !m.efficientpose && wantsEfficientpose cfg then 1 else 0) +
   (if !m.nanodet && wantsNanodet cfg then 1 else 0) +
   (if !m.faceres && wantsFaceres cfg then 1 else 0))

/-- `Human.#sanity` (index.ts lines 217–227): the quick input check, guarded by the
`#checkSanity` instance flag; returns the error message or `null`. -/
def sanity (checkSanity : Bool) (input : Option ℕ) (isNode inputIsTensor backendOk : Bool) :
    Option String :=
  if !checkSanity then none
  else if input.isNone then some "input is not defined"
  else if isNode && !inputIsTensor then some "input must be a tensor"
  else if !backendOk then some "backend not loaded"
  else none

/-- The value of the `#checkSanity` instance flag as set by the constructor
(index.ts line 163); no code path changes it afterwards. -/
def checkSanityDefault : Bool := false

/-- The messages `#sanity` can produce — the `InvalidInputError` family of the
spec's error taxonomy (absent input / wrong input kind / unavailable backend). -/
def sanityMessages : List String :=
  ["input is not defined", "input must be a tensor", "backend not loaded"]

/-- The per-stage performance record `this.perf`, restricted to the fields the
claims concern.  Entries persist across `detect` calls on the instance. -/
structure Perf where
  (image face body hand object gesture total : Option ℕ)
deriving DecidableEq, Repr

/-- An empty performance record (the constructor's `this.perf = {}`). -/
def emptyPerf : Perf := ⟨none, none, none, none, none, none, none⟩

/-- `if (this.perf.x) delete this.perf.x` — the async-mode removal of a per-stage
entry.  A stored 0 is falsy in JavaScript and therefore survives the delete. -/
def delIfTruthy : Option ℕ → Option ℕ
  | some n => if n = 0 then some 0 else none
  | none => none

/-- `current = Math.trunc(now() - timeStamp); if (current > 0) this.perf.x = current`
— the sequential-mode store, keeping the previous entry when the elapsed time
truncates to zero. -/
def seqStore (old : Option ℕ) (t : ℕ) : Option ℕ := if 0 < t then some t else old

/-- The aggregated per-call result (index.ts lines 496–504) minus the performance
record.  `body`, `hand` and `object` are `Option`s because the corresponding
pipeline expressions can produce `undefined`/`null` (optional chaining on a missing
model handle, or `nanodet.predict` without a model); abstract detections are `ℕ`
tags except the object channel, which carries the nanodet candidates. -/
structure ResultData where
  face : List ℕ
  body : Option (List ℕ)
  hand : Option (List ℕ)
  gesture : List ℕ
  object : Option (List Nanodet.Candidate)
  canvas : Option ℕ
deriving DecidableEq, Repr

/-- One call to `resolve` inside `detect`: either an error descriptor
`{ error }` or a full result. -/
inductive Resolution where
  | err (msg : String)
  | ok (data : ResultData) (perf : Perf)
deriving DecidableEq, Repr

/-- Erase the reported performance record of a resolution, for comparing results
up to timings. -/
def stripPerf : Resolution → Resolution
  | .err m => .err m
  | .ok d _ => .ok d emptyPerf

/-- The deterministic external collaborators of one `detect` call: platform flags,
the image pre-processor (tensor and canvas per input, `none` when conversion
fails), the per-capability pipelines as functions of the frame tensor, the gesture
rule matchers, and the elapsed wall-clock times the call would measure. -/
structure DetectEnv where
  (isNode inputIsTensor backendOk : Bool)
  processImage : ℕ → Option (ℕ × Option ℕ)
  (faceRes posenetRes blazeposeRes efficientposeRes handRes : ℕ → List ℕ)
  objectDecode : ℕ → List Nanodet.Candidate
  gFace : List ℕ → List ℕ
  gBody : Option (List ℕ) → List ℕ
  gHand : Option (List ℕ) → List ℕ
  gIris : List ℕ → List ℕ
  (tImage tFace tBody tHand tObject tGesture tTotal : ℕ)

/-- Everything one `detect` call produces and mutates: the ordered list of
`resolve` calls it makes (a JavaScript promise settles on the first), the updated
model registry, nanodet cache and performance record, and the number of
per-capability pipeline invocations issued. -/
structure DetectOut where
  resolutions : List Resolution
  models : Models
  nanodet : Nanodet.CacheState Nanodet.Candidate
  perf : Perf
  pipelineCalls : ℕ
deriving DecidableEq, Repr

/-- `Human.detect` (index.ts lines 373–508), for the already-merged configuration
`cfg`.  The call: runs `#sanity` and resolves an error descriptor without
returning when it fails; configures the backend and loads enabled models; converts
the input (resolving the conversion error and returning when no tensor results);
records the image time; runs the face, body, hand and object stages — in
concurrent mode each stage's stale per-stage timing entry is deleted, in
sequential mode a positive elapsed time is stored; derives gestures when enabled;
records the total time; and resolves the aggregated result. -/
def detectRun (env : DetectEnv) (input : Option ℕ) (cfg : Config) (checkSanity : Bool)
    (models0 : Models) (nano0 : Nanodet.CacheState Nanodet.Candidate) (perf0 : Perf) :
    DetectOut :=
  let res0 : List Resolution :=
    match sanity checkSanity input env.isNode env.inputIsTensor env.backendOk with
    | some m => [.err m]
    | none => []
  let models1 := (load cfg models0).1
  match input.bind env.processImage with
  | none =>
      { resolutions := res0 ++ [.err "could not convert input to tensor"]
        models := models1, nanodet := nano0, perf := perf0, pipelineCalls := 0 }
  | some (tensor, canvas) =>
      let perf1 : Perf := { perf0 with image := some env.tImage }
      let faceRes := if cfg.face.enabled then env.faceRes tensor else []
      let perf2 := if cfg.async then { perf1 with face := delIfTruthy perf1.face }
                   else { perf1 with face := seqStore perf1.face env.tFace }
      let bodyRes : Option (List ℕ) :=
        if strIncludes cfg.body.modelPath "posenet" then
          if cfg.body.enabled then
            (if models1.posenet then some (env.posenetRes tensor) else none)
          else some []
        else if strIncludes cfg.body.modelPath "blazepose" then
          if cfg.body.enabled then
            (if models1.blazepose then some (env.blazeposeRes tensor) else none)
          else some []
        else if strIncludes cfg.body.modelPath "efficientpose" then
          if cfg.body.enabled then
            (if models1.efficientpose then some (env.efficientposeRes tensor) else none)
          else some []
        else none
      let perf3 := if cfg.async then { perf2 with body := delIfTruthy perf2.body }
                   else { perf2 with body := seqStore perf2.body env.tBody }
      let handRes : Option (List ℕ) :=
        if cfg.hand.enabled then (if models1.handpose then some (env.handRes tensor) else none)
        else some []
      let perf4 := if cfg.async then { perf3 with hand := delIfTruthy perf3.hand }
                   else { perf3 with hand := seqStore perf3.hand env.tHand }
      let op :=
        if cfg.object.enabled then
          Nanodet.predictStep models1.nanodet cfg.videoOptimized cfg.object.skipFrames
            (env.objectDecode tensor) nano0
        else (some [], nano0, 0)
      let perf5 := if cfg.async then { perf4 with object := delIfTruthy perf4.object }
                   else { perf4 with object := seqStore perf4.object env.tObject }
      let gestureRes :=
        if cfg.gesture.enabled then
          env.gFace faceRes ++ env.gBody bodyRes ++ env.gHand handRes ++ env.gIris faceRes
        else []
      let perf6 :=
        if cfg.gesture.enabled then
          (if !cfg.async then { perf5 with gesture := some env.tGesture }
           else { perf5 with gesture := delIfTruthy perf5.gesture })
        else perf5
      let perf7 := { perf6 with total := some env.tTotal }
      let data : ResultData := ⟨faceRes, bodyRes, handRes, gestureRes, op.1, canvas⟩
      { resolutions := res0 ++ [.ok data perf7]
        models := models1, nanodet := op.2.1, perf := perf7
        pipelineCalls :=
          (if cfg.face.enabled then 1 else 0) + (if cfg.body.enabled then 1 else 0) +
          (if cfg.hand.enabled then 1 else 0) + op.2.2 }

/-- `mergeDeep` at the granularity of this model: both arguments are full
configuration snapshots, so every recognized option is overwritten by the
override. -/
def mergeDeep (_c u : Config) : Config := u

/-- The configuration under which the warmup detection runs (index.ts lines
577–583): the instance configuration after warmup's own user-override merge, with
`videoOptimized` forced off; the inner `detect` then re-merges that same
configuration object into itself (line 380). -/
def warmupDetectConfig (cfg : Config) : Config :=
  mergeDeep { cfg with videoOptimized := false } { cfg with videoOptimized := false }

/-- `Human.warmup`'s net effect on the instance configuration (index.ts lines
575–588), starting from the configuration as it stands after the initial merge of
the caller's overrides (line 577): save `videoOptimized`, run the warmup
detection with it forced off (whichever of the bitmap/canvas/node paths runs), and
restore the saved value before returning. -/
def warmupConfig (cfg : Config) : Config :=
  let save := cfg.videoOptimized
  { warmupDetectConfig cfg with videoOptimized := save }

end Human

/-! ### Concrete fixtures

Small closed instances used to evaluate the model on explicit inputs. -/

/-- A deterministic environment: every input converts to a tensor with no canvas,
every pipeline returns the empty result, stage timings are 1 and the total 7. -/
def envFix : Human.DetectEnv where
  isNode := false
  inputIsTensor := true
  backendOk := true
  processImage := fun t => some (t, none)
  faceRes := fun _ => []
  posenetRes := fun _ => []
  blazeposeRes := fun _ => []
  efficientposeRes := fun _ => []
  handRes := fun _ => []
  objectDecode := fun _ => []
  gFace := fun _ => []
  gBody := fun _ => []
  gHand := fun _ => []
  gIris := fun _ => []
  tImage := 1
  tFace := 1
  tBody := 1
  tHand := 1
  tObject := 1
  tGesture := 1
  tTotal := 7

/-- Concurrent-mode configuration with every capability disabled. -/
def cfgAllOff : Human.Config where
  async := true
  videoOptimized := false
  scopedBuffers := false
  debug := false
  face := ⟨false, false, false, false, false, false⟩
  body := ⟨false, ""⟩
  hand := ⟨false⟩
  object := ⟨false, 0, 0, 0, 0⟩
  gesture := ⟨false⟩

/-- A performance record carrying a stale gesture timing from an earlier
sequential call. -/
def perfStale : Human.Perf := { Human.emptyPerf with gesture := some 5 }

/-- A default candidate value, used only to make list indexing total in closed
statements. -/
def dummyCandidate : Nanodet.Candidate := ⟨0, 0, 0, 0, "", [], [], [], []⟩

/-- A one-cell, one-class decode: score grid `[[1]]` against a single four-feature
regression row, stride 1, input size 13, 13×13 output. -/
def sampleCandidates : List Nanodet.Candidate :=
  Nanodet.strideDecode ["thing"] 0 1 13 13 13 [[1]] [[1, 2, 3, 4]] 0

/-! ### Claim theorems -/

/-- `Human.load` reads no execution-mode option: toggling `async` leaves the
registry effect unchanged (both branches of the source test the same
conditions). -/
theorem load_async_agnostic (cfg : Human.Config) (b : Bool) (m : Human.Models) :
    Human.load { cfg with async := b } m = Human.load cfg m := rfl

/-- C9: `warmup` leaves the `videoOptimized` configuration flag unchanged: the
warmup detection runs with the flag forced off, and the configuration after
`warmup` carries the saved original value, for every configuration (whichever
warmup path ran). -/
theorem warmup_restores_videoOptimized (cfg : Human.Config) :
    (Human.warmupDetectConfig cfg).videoOptimized = false ∧
    (Human.warmupConfig cfg).videoOptimized = cfg.videoOptimized :=
  ⟨rfl, rfl⟩

/-- C7: model loading is idempotent per capability.  A second `Human.load` with
the same configuration changes nothing and performs zero underlying loads; two
consecutive loads from the empty registry perform exactly one underlying load per
enabled capability; and the nanodet module-level `load` never reloads an existing
handle. -/
theorem load_idempotent (cfg : Human.Config) (m : Human.Models) (b : Bool) :
    (Human.load cfg (Human.load cfg m).1).1 = (Human.load cfg m).1 ∧
    (Human.load cfg (Human.load cfg m).1).2 = 0 ∧
    (Human.load cfg Human.emptyModels).2 +
        (Human.load cfg (Human.load cfg Human.emptyModels).1).2 = Human.enabledCount cfg ∧
    (Nanodet.load (Nanodet.load b).1).2 = 0 := by
  have hor : ∀ a w : Bool, ((a || w) || w) = (a || w) := by decide
  have hno : ∀ a w : Bool, (!(a || w) && w) = false := by decide
  refine ⟨?_, ?_, ?_, ?_⟩
  · simp [Human.load, hor]
  · simp [Human.load, hno]
  · simp [Human.load, Human.emptyModels, Human.enabledCount, hno]
  · cases b <;> rfl

/-- C1: the frame-skip cache of the object pipeline.  With `videoOptimized` on, a
skip counter below `skipFrames` and a non-empty cached result, `predict`
increments the counter and returns the cached result unchanged with no model
execution; otherwise a real decode runs, is cached, and resets the counter (to 0
under `videoOptimized`, else to the sentinel); and from the initial module state
with `skipFrames = 2`, four `predict` calls perform exactly two real decodes, on
calls 1 and 4. -/
theorem nanodet_predict_frame_skip {α : Type} (video : Bool) (skipFrames : ℕ)
    (s : Nanodet.CacheState α) (d d1 d2 d3 d4 : List α) :
    (s.skipped < skipFrames → 0 < s.last.length →
      Nanodet.predictStep true true skipFrames d s = (some s.last, ⟨s.last, s.skipped + 1⟩, 0)) ∧
    (¬(s.skipped < skipFrames ∧ video = true ∧ 0 < s.last.length) →
      Nanodet.predictStep true video skipFrames d s
        = (some d, ⟨d, if video then 0 else Nanodet.maxSafeInteger⟩, 1)) ∧
    (d1 ≠ [] →
      Nanodet.predictTrace true 2 [d1, d2, d3, d4] (Nanodet.initialCache α) = [1, 0, 0, 1]) := by
  refine ⟨?_, ?_, ?_⟩
  · intro h1 h2
    simp [Nanodet.predictStep, h1, h2]
  · intro h
    simp [Nanodet.predictStep, h]
  · intro h1
    have hl : 0 < d1.length := List.length_pos.mpr h1
    have hbig : ¬ (Nanodet.maxSafeInteger < 2) := by decide
    simp [Nanodet.predictTrace, Nanodet.predictStep, Nanodet.initialCache, hbig, hl]

/-- Witness for C1 at concrete inputs. -/
theorem nanodet_predict_frame_skip_witness :
    Nanodet.predictStep true true 2 ([3] : List ℕ) ⟨[5], 0⟩ = (some [5], ⟨[5], 1⟩, 0) ∧
    Nanodet.predictStep true true 2 ([9] : List ℕ) ⟨[], 7⟩
      = (some [9], ⟨[9], if true then 0 else Nanodet.maxSafeInteger⟩, 1) ∧
    Nanodet.predictTrace true 2 [[3], [4], [5], [6]] (Nanodet.initialCache ℕ) = [1, 0, 0, 1] :=
  ⟨(nanodet_predict_frame_skip true 2 ⟨[5], 0⟩ [3] [3] [4] [5] [6]).1 (by decide) (by decide),
   (nanodet_predict_frame_skip true 2 ⟨[], 7⟩ [9] [3] [4] [5] [6]).2.1 (by decide),
   (nanodet_predict_frame_skip true 2 ⟨[5], 0⟩ [3] [3] [4] [5] [6]).2.2 (by decide)⟩

/-- C5 (amended): `detect` with a null input resolves with an error value and
issues no pipeline invocation, but the descriptor is the image-conversion error,
not the `InvalidInputError` family: the constructor leaves `#checkSanity` off, so
`#sanity` never fires; even with the check enabled the call resolves with
"input is not defined" (and, the `resolve` not being followed by a return,
execution still continues to the image stage, which stops the call). -/
theorem detect_null_input_amended (env : Human.DetectEnv) (cfg : Human.Config)
    (models0 : Human.Models) (nano0 : Nanodet.CacheState Nanodet.Candidate)
    (perf0 : Human.Perf) :
    (Human.detectRun env none cfg Human.checkSanityDefault models0 nano0 perf0).resolutions.head?
        = some (.err "could not convert input to tensor") ∧
    (Human.detectRun env none cfg Human.checkSanityDefault models0 nano0 perf0).pipelineCalls
        = 0 ∧
    (Human.detectRun env none cfg true models0 nano0 perf0).resolutions.head?
        = some (.err "input is not defined") ∧
    (Human.detectRun env none cfg true models0 nano0 perf0).pipelineCalls = 0 := by
  refine ⟨?_, ?_, ?_, ?_⟩ <;>
    simp [Human.detectRun, Human.sanity, Human.checkSanityDefault]

/-- Counterexample to C5 as stated: at the constructed instance (sanity check
disabled), `detect(null)` resolves with the image-conversion descriptor, which is
not one of the `#sanity` (`InvalidInputError`-shaped) messages. -/
theorem detect_null_input_counterexample :
    (Human.detectRun envFix none cfgAllOff Human.checkSanityDefault Human.emptyModels
        (Nanodet.initialCache _) Human.emptyPerf).resolutions.head?
      = some (.err "could not convert input to tensor") ∧
    "could not convert input to tensor" ∉ Human.sanityMessages := by
  exact ⟨rfl, by decide⟩

/-- C6: for the same input, environment and initial state, `detect` in concurrent
mode (`async = true`) and in sequential mode produce the same resolutions up to
the reported performance record — same error descriptors, same face/body/hand/
gesture/object results in the same order — and the same registry, nanodet cache
and pipeline invocations. -/
theorem detect_async_sync_same_results (env : Human.DetectEnv) (input : Option ℕ)
    (cs : Bool) (models0 : Human.Models) (nano0 : Nanodet.CacheState Nanodet.Candidate)
    (perf0 : Human.Perf) (cfg : Human.Config) :
    ((Human.detectRun env input { cfg with async := true } cs models0 nano0 perf0).resolutions.map
        Human.stripPerf
      = (Human.detectRun env input { cfg with async := false } cs models0 nano0
          perf0).resolutions.map Human.stripPerf) ∧
    (Human.detectRun env input { cfg with async := true } cs models0 nano0 perf0).models
      = (Human.detectRun env input { cfg with async := false } cs models0 nano0 perf0).models ∧
    (Human.detectRun env input { cfg with async := true } cs models0 nano0 perf0).nanodet
      = (Human.detectRun env input { cfg with async := false } cs models0 nano0 perf0).nanodet ∧
    (Human.detectRun env input { cfg with async := true } cs models0 nano0 perf0).pipelineCalls
      = (Human.detectRun env input { cfg with async := false } cs models0 nano0
          perf0).pipelineCalls := by
  cases h : input.bind env.processImage with
  | none => refine ⟨?_, ?_, ?_, ?_⟩ <;> simp [Human.detectRun, h, load_async_agnostic]
  | some tc =>
    obtain ⟨tensor, canvas⟩ := tc
    refine ⟨?_, ?_, ?_, ?_⟩ <;>
      simp [Human.detectRun, h, Human.stripPerf, load_async_agnostic]

/-- C8 (amended): in concurrent mode the face, body, hand and object per-stage
entries are removed from the performance record (they are never stored as zero by
`detect` itself; a pre-existing zero entry would be falsy and survive the delete),
the gesture entry is removed only when gestures are enabled and the stale entry is
nonzero, and the total end-to-end time is recorded in every mode. -/
theorem detect_async_perf_amended (env : Human.DetectEnv) (input : Option ℕ)
    (cfg : Human.Config) (cs : Bool) (models0 : Human.Models)
    (nano0 : Nanodet.CacheState Nanodet.Candidate) (perf0 : Human.Perf)
    (tc : ℕ × Option ℕ) (hImg : input.bind env.processImage = some tc) :
    (cfg.async = true →
      (perf0.face ≠ some 0 →
        (Human.detectRun env input cfg cs models0 nano0 perf0).perf.face = none) ∧
      (perf0.body ≠ some 0 →
        (Human.detectRun env input cfg cs models0 nano0 perf0).perf.body = none) ∧
      (perf0.hand ≠ some 0 →
        (Human.detectRun env input cfg cs models0 nano0 perf0).perf.hand = none) ∧
      (perf0.object ≠ some 0 →
        (Human.detectRun env input cfg cs models0 nano0 perf0).perf.object = none) ∧
      (cfg.gesture.enabled = true → perf0.gesture ≠ some 0 →
        (Human.detectRun env input cfg cs models0 nano0 perf0).perf.gesture = none)) ∧
    (Human.detectRun env input cfg cs models0 nano0 perf0).perf.total = some env.tTotal := by
  obtain ⟨tensor, canvas⟩ := tc
  have hdel : ∀ o : Option ℕ, o ≠ some 0 → Human.delIfTruthy o = none := by
    intro o ho
    match o with
    | none => rfl
    | some n =>
      have : n ≠ 0 := by intro h; exact ho (by simp [h])
      simp [Human.delIfTruthy, this]
  constructor
  · intro ha
    refine ⟨?_, ?_, ?_, ?_, ?_⟩
    · intro hf
      cases hg : cfg.gesture.enabled <;>
        simp [Human.detectRun, hImg, ha, hg, hdel _ hf]
    · intro hf
      cases hg : cfg.gesture.enabled <;>
        simp [Human.detectRun, hImg, ha, hg, hdel _ hf]
    · intro hf
      cases hg : cfg.gesture.enabled <;>
        simp [Human.detectRun, hImg, ha, hg, hdel _ hf]
    · intro hf
      cases hg : cfg.gesture.enabled <;>
        simp [Human.detectRun, hImg, ha, hg, hdel _ hf]
    · intro hg hf
      simp [Human.detectRun, hImg, ha, hg, hdel _ hf]
  · cases hg : cfg.gesture.enabled <;> cases ha : cfg.async <;>
      simp [Human.detectRun, hImg, hg, ha]

/-- Witness for C8 (amended) at a concrete environment and configuration. -/
theorem detect_async_perf_amended_witness :
    (Human.detectRun envFix (some 0) cfgAllOff false Human.emptyModels
        (Nanodet.initialCache _) Human.emptyPerf).perf.face = none ∧
    (Human.detectRun envFix (some 0) cfgAllOff false Human.emptyModels
        (Nanodet.initialCache _) Human.emptyPerf).perf.total = some envFix.tTotal :=
  ⟨((detect_async_perf_amended envFix (some 0) cfgAllOff false Human.emptyModels
      (Nanodet.initialCache _) Human.emptyPerf (0, none) rfl).1 rfl).1 (by decide),
   (detect_async_perf_amended envFix (some 0) cfgAllOff false Human.emptyModels
      (Nanodet.initialCache _) Human.emptyPerf (0, none) rfl).2⟩

/-- Counterexample to C8 as stated: a concurrent-mode call with gestures disabled
does not remove a stale gesture timing entry — the delete is guarded by
`config.gesture.enabled`. -/
theorem detect_async_perf_counterexample :
    cfgAllOff.async = true ∧
    (Human.detectRun envFix (some 0) cfgAllOff false Human.emptyModels
        (Nanodet.initialCache _) perfStale).perf.gesture = some 5 :=
  ⟨rfl, rfl⟩

/-! ### The stride decoder's argmax scheme -/

/-- Specification of the `argmax` scan: either the starting best survives and
bounds every scanned element, or the scan lands on some position `k` of the
remainder whose value bounds both the starting best and every scanned element. -/
theorem argmaxAux_spec (xs : List ℚ) : ∀ (i bi : ℕ) (bv : ℚ),
    (Nanodet.argmaxAux xs i bi bv = bi ∧ ∀ a ∈ xs, a ≤ bv) ∨
    (∃ k, k < xs.length ∧ Nanodet.argmaxAux xs i bi bv = i + k ∧ bv ≤ xs.getD k 0 ∧
      ∀ a ∈ xs, a ≤ xs.getD k 0) := by
  induction xs with
  | nil => intro i bi bv; exact Or.inl ⟨rfl, by simp⟩
  | cons x xs ih =>
    intro i bi bv
    by_cases h : bv < x
    · rcases ih (i + 1) i x with ⟨he, hall⟩ | ⟨k, hk, he, hbv, hall⟩
      · refine Or.inr ⟨0, by simp, ?_, ?_, ?_⟩
        · simpa [Nanodet.argmaxAux, h] using he
        · simpa using le_of_lt h
        · intro a ha
          rcases List.mem_cons.mp ha with rfl | ha
          · simp
          · simpa using hall a ha
      · refine Or.inr ⟨k + 1, by simpa using hk, ?_, ?_, ?_⟩
        · simp only [Nanodet.argmaxAux, if_pos h]
          rw [he]; omega
        · simpa using le_trans (le_of_lt h) hbv
        · intro a ha
          rcases List.mem_cons.mp ha with rfl | ha
          · simpa using hbv
          · simpa using hall a ha
    · rcases ih (i + 1) bi bv with ⟨he, hall⟩ | ⟨k, hk, he, hbv, hall⟩
      · refine Or.inl ⟨by simpa [Nanodet.argmaxAux, h] using he, ?_⟩
        intro a ha
        rcases List.mem_cons.mp ha with rfl | ha
        · exact not_lt.mp h
        · exact hall a ha
      · refine Or.inr ⟨k + 1, by simpa using hk, ?_, ?_, ?_⟩
        · simp only [Nanodet.argmaxAux, if_neg h]
          rw [he]; omega
        · simpa using hbv
        · intro a ha
          rcases List.mem_cons.mp ha with rfl | ha
          · simpa using le_trans (not_lt.mp h) hbv
          · simpa using hall a ha

/-- `argmax` of a non-empty list is a valid index whose element bounds the whole
list. -/
theorem argmax_spec (l : List ℚ) (h : l ≠ []) :
    Nanodet.argmax l < l.length ∧ ∀ a ∈ l, a ≤ l.getD (Nanodet.argmax l) 0 := by
  match l with
  | [] => exact absurd rfl h
  | x :: xs =>
    rcases argmaxAux_spec xs 1 0 x with ⟨he, hall⟩ | ⟨k, hk, he, hbv, hall⟩
    · refine ⟨?_, ?_⟩
      · simp [Nanodet.argmax, he]
      · intro a ha
        rcases List.mem_cons.mp ha with rfl | ha
        · simp [Nanodet.argmax, he]
        · simpa [Nanodet.argmax, he] using hall a ha
    · have he' : Nanodet.argmax (x :: xs) = k + 1 := by
        simp only [Nanodet.argmax]; rw [he]; omega
      refine ⟨?_, ?_⟩
      · simp [he']; omega
      · intro a ha
        rcases List.mem_cons.mp ha with rfl | ha
        · simpa [he'] using hbv
        · simpa [he'] using hall a ha

/-- The clamp of nanodet.ts line 51 lands in [0,1]. -/
theorem clamp01_bounds (q : ℚ) : 0 ≤ Nanodet.clamp01 q ∧ Nanodet.clamp01 q ≤ 1 :=
  ⟨le_max_left 0 _, max_le (by norm_num) (min_le_right q 1)⟩

/-- C2: the stride decoder's regression scheme.  The per-cell regression row is
reshaped into 4 per-edge groups (`groups4`), and for each group in range the value
the decoder stores (`boxIdxRow`) is an *index* into that group — a valid position
whose element bounds every element of the group — not the maximal value itself;
`strideDecode` then scales exactly these indices into box offsets. -/
theorem regression_uses_argmax_index (row : List ℚ) (k : ℕ) (hk : k < 4)
    (hne : (Nanodet.groups4 row).getD k [] ≠ []) :
    (Nanodet.boxIdxRow row).length = 4 ∧
    (Nanodet.boxIdxRow row).getD k 0 < ((Nanodet.groups4 row).getD k []).length ∧
    ∀ a ∈ (Nanodet.groups4 row).getD k [],
      a ≤ ((Nanodet.groups4 row).getD k []).getD ((Nanodet.boxIdxRow row).getD k 0) 0 := by
  have hlen : (Nanodet.boxIdxRow row).length = 4 := by
    simp [Nanodet.boxIdxRow, Nanodet.groups4]
  have hidx : (Nanodet.boxIdxRow row).getD k 0
      = Nanodet.argmax ((Nanodet.groups4 row).getD k []) := by
    interval_cases k <;> simp [Nanodet.boxIdxRow, Nanodet.groups4]
  rw [hidx]
  exact ⟨hlen, (argmax_spec _ hne).1, (argmax_spec _ hne).2⟩

/-- Witness for C2 on the regression row `[1, 2, 3, 4, 5, 6, 7, 8]`, group 1
(`[3, 4]`). -/
theorem regression_uses_argmax_index_witness :
    (Nanodet.boxIdxRow [1, 2, 3, 4, 5, 6, 7, 8]).length = 4 ∧
    (Nanodet.boxIdxRow [1, 2, 3, 4, 5, 6, 7, 8]).getD 1 0
        < ((Nanodet.groups4 [1, 2, 3, 4, 5, 6, 7, 8]).getD 1 []).length ∧
    (3 : ℚ) ≤ ((Nanodet.groups4 [1, 2, 3, 4, 5, 6, 7, 8]).getD 1 []).getD
        ((Nanodet.boxIdxRow [1, 2, 3, 4, 5, 6, 7, 8]).getD 1 0) 0 :=
  ⟨(regression_uses_argmax_index [1, 2, 3, 4, 5, 6, 7, 8] 1 (by decide)
      (by with_unfolding_all decide)).1,
   (regression_uses_argmax_index [1, 2, 3, 4, 5, 6, 7, 8] 1 (by decide)
      (by with_unfolding_all decide)).2.1,
   (regression_uses_argmax_index [1, 2, 3, 4, 5, 6, 7, 8] 1 (by decide)
      (by with_unfolding_all decide)).2.2 3 (by with_unfolding_all decide)⟩

/-- Every candidate emitted by `strideDecode` arises from some cell `i` and class
column `j` whose score passes the confidence gate; all its fields other than `id`
are those of the corresponding `mkCandidate` record. -/
theorem strideDecode_mem_shape {labels : List String} {minConf : ℚ}
    {strideSize inputSize out0 out1 : ℕ} {scores features : List (List ℚ)} {id0 : ℕ}
    {c : Nanodet.Candidate}
    (hc : c ∈ Nanodet.strideDecode labels minConf strideSize inputSize out0 out1 scores
      features id0) :
    ∃ i j, i < scores.length ∧ j < (scores.getD i []).length ∧
      minConf < (scores.getD i []).getD j 0 ∧ j ≠ 61 ∧
      c = { Nanodet.mkCandidate labels strideSize inputSize out0 out1
              (features.map Nanodet.boxIdxRow) i j ((scores.getD i []).getD j 0) with
            id := c.id } := by
  simp only [Nanodet.strideDecode, List.mem_map] at hc
  obtain ⟨p, hp, hpc⟩ := hc
  have hpraw := List.mem_enum_iff_getElem?.mp hp
  have h2 := List.getElem?_mem hpraw
  rw [List.mem_flatMap] at h2
  obtain ⟨pr, hpr, hmem⟩ := h2
  rw [List.mem_filterMap] at hmem
  obtain ⟨q, hq, hfq⟩ := hmem
  by_cases hcond : minConf < q.2 ∧ q.1 ≠ 61
  · rw [if_pos hcond, Option.some_inj] at hfq
    have hprg := List.mem_enum_iff_getElem?.mp hpr
    have hqg := List.mem_enum_iff_getElem?.mp hq
    have hi : pr.1 < scores.length := by
      by_contra hlt
      rw [List.getElem?_eq_none (by omega)] at hprg
      exact Option.noConfusion hprg
    have hrow : scores.getD pr.1 [] = pr.2 := by
      rw [List.getD_eq_getElem?_getD, hprg]; rfl
    have hj : q.1 < pr.2.length := by
      by_contra hlt
      rw [List.getElem?_eq_none (by omega)] at hqg
      exact Option.noConfusion hqg
    have hsc : pr.2.getD q.1 0 = q.2 := by
      rw [List.getD_eq_getElem?_getD, hqg]; rfl
    refine ⟨pr.1, q.1, hi, by rw [hrow]; exact hj, by rw [hrow, hsc]; exact hcond.1,
      hcond.2, ?_⟩
    rw [hrow, hsc, hfq]
    rw [← hpc]
  · rw [if_neg hcond] at hfq
    exact Option.noConfusion hfq

/-- C4: every candidate emitted by the stride decoder carries a normalized box
whose four components were clamped into [0,1] (the `boxRaw` the pixel conversion
then scales). -/
theorem strideDecode_boxRaw_clamped (labels : List String) (minConf : ℚ)
    (strideSize inputSize out0 out1 : ℕ) (scores features : List (List ℚ)) (id0 : ℕ)
    (c : Nanodet.Candidate)
    (hc : c ∈ Nanodet.strideDecode labels minConf strideSize inputSize out0 out1 scores
      features id0) :
    c.boxRaw.length = 4 ∧ ∀ q ∈ c.boxRaw, 0 ≤ q ∧ q ≤ 1 := by
  obtain ⟨i, j, -, -, -, -, hceq⟩ := strideDecode_mem_shape hc
  have hbr : c.boxRaw
      = (Nanodet.mkCandidate labels strideSize inputSize out0 out1
          (features.map Nanodet.boxIdxRow) i j ((scores.getD i []).getD j 0)).boxRaw := by
    rw [hceq]
  rw [hbr]
  constructor
  · simp [Nanodet.mkCandidate]
  · intro q hq
    simp only [Nanodet.mkCandidate, List.map_cons, List.map_nil, List.mem_cons,
      List.not_mem_nil, or_false] at hq
    rcases hq with rfl | rfl | rfl | rfl
    · exact clamp01_bounds _
    · exact clamp01_bounds _
    · exact clamp01_bounds _
    · exact clamp01_bounds _

/-- Witness for C4 on the one-cell sample decode. -/
theorem strideDecode_boxRaw_clamped_witness :
    (sampleCandidates.getD 0 dummyCandidate).boxRaw.length = 4 ∧
    0 ≤ (sampleCandidates.getD 0 dummyCandidate).boxRaw.getD 0 0 ∧
    (sampleCandidates.getD 0 dummyCandidate).boxRaw.getD 0 0 ≤ 1 :=
  ⟨(strideDecode_boxRaw_clamped ["thing"] 0 1 13 13 13 [[1]] [[1, 2, 3, 4]] 0
      (sampleCandidates.getD 0 dummyCandidate) (by with_unfolding_all decide)).1,
   ((strideDecode_boxRaw_clamped ["thing"] 0 1 13 13 13 [[1]] [[1, 2, 3, 4]] 0
      (sampleCandidates.getD 0 dummyCandidate) (by with_unfolding_all decide)).2
     ((sampleCandidates.getD 0 dummyCandidate).boxRaw.getD 0 0)
     (by with_unfolding_all decide)).1,
   ((strideDecode_boxRaw_clamped ["thing"] 0 1 13 13 13 [[1]] [[1, 2, 3, 4]] 0
      (sampleCandidates.getD 0 dummyCandidate) (by with_unfolding_all decide)).2
     ((sampleCandidates.getD 0 dummyCandidate).boxRaw.getD 0 0)
     (by with_unfolding_all decide)).2⟩

/-- C10: every candidate emitted by the stride decoder carries a one-based class
index: when every score row has one column per label (the shape `find` guarantees),
`cls` is at least 1, `cls - 1` indexes the label table, and `label` is exactly the
table entry at that zero-based position. -/
theorem candidate_class_one_based (labels : List String) (minConf : ℚ)
    (strideSize inputSize out0 out1 : ℕ) (scores features : List (List ℚ)) (id0 : ℕ)
    (hcols : ∀ row ∈ scores, row.length = labels.length)
    (c : Nanodet.Candidate)
    (hc : c ∈ Nanodet.strideDecode labels minConf strideSize inputSize out0 out1 scores
      features id0) :
    1 ≤ c.cls ∧ c.cls - 1 < labels.length ∧ c.label = labels.getD (c.cls - 1) "" := by
  obtain ⟨i, j, hi, hj, -, -, hceq⟩ := strideDecode_mem_shape hc
  have hcls : c.cls = j + 1 := by rw [hceq]; exact rfl
  have hlab : c.label = labels.getD j "" := by rw [hceq]; exact rfl
  have hrow : scores.getD i [] ∈ scores := by
    rw [List.getD_eq_getElem _ _ hi]
    exact List.getElem_mem hi
  have hjl : j < labels.length := by rw [← hcols _ hrow]; exact hj
  refine ⟨by omega, by omega, ?_⟩
  rw [hlab, hcls]
  norm_num

/-- Witness for C10 on the one-cell sample decode: the emitted candidate has
class 1 and label `"thing"`, entry 0 of the table. -/
theorem candidate_class_one_based_witness :
    1 ≤ (sampleCandidates.getD 0 dummyCandidate).cls ∧
    (sampleCandidates.getD 0 dummyCandidate).cls - 1 < (["thing"] : List String).length ∧
    (sampleCandidates.getD 0 dummyCandidate).label
      = (["thing"] : List String).getD ((sampleCandidates.getD 0 dummyCandidate).cls - 1) "" :=
  candidate_class_one_based ["thing"] 0 1 13 13 13 [[1]] [[1, 2, 3, 4]] 0 (by decide)
    (sampleCandidates.getD 0 dummyCandidate) (by with_unfolding_all decide)

/-! ### Suppressor postconditions -/

/-- IoU is symmetric in its two boxes. -/
theorem iou_comm (a b : List ℚ) : Nanodet.iou a b = Nanodet.iou b a := by
  have hinter : Nanodet.intersectionArea a b = Nanodet.intersectionArea b a := by
    unfold Nanodet.intersectionArea Nanodet.interLen
    rw [min_comm (Nanodet.boxHi a 0), max_comm (Nanodet.boxLo a 0),
      min_comm (Nanodet.boxHi a 1), max_comm (Nanodet.boxLo a 1)]
  unfold Nanodet.iou
  rw [hinter, add_comm (Nanodet.boxArea a)]
  simp only [or_comm]

/-- The greedy selection makes at most `budget` selections. -/
theorem greedy_length_le (boxes : List (List ℚ)) (t : ℚ) :
    ∀ (budget : ℕ) (l : List ℕ), (Nanodet.greedy boxes t budget l).length ≤ budget := by
  intro budget
  induction budget with
  | zero => intro l; simp [Nanodet.greedy]
  | succ n ih =>
    intro l
    cases l with
    | nil => simp [Nanodet.greedy]
    | cons i rest =>
      simp only [Nanodet.greedy, List.length_cons]
      exact Nat.succ_le_succ (ih _)

/-- The greedy selection only selects candidates it was given. -/
theorem greedy_subset (boxes : List (List ℚ)) (t : ℚ) :
    ∀ (budget : ℕ) (l : List ℕ), Nanodet.greedy boxes t budget l ⊆ l := by
  intro budget
  induction budget with
  | zero => intro l x hx; simp [Nanodet.greedy] at hx
  | succ n ih =>
    intro l
    cases l with
    | nil => intro x hx; simp [Nanodet.greedy] at hx
    | cons i rest =>
      intro x hx
      simp only [Nanodet.greedy, List.mem_cons] at hx
      rcases hx with rfl | hx
      · exact List.mem_cons_self _ _
      · exact List.mem_cons_of_mem _ (List.filter_sublist _ |>.subset (ih _ hx))

/-- Any two selections of the greedy loop, in selection order, have IoU below the
threshold: every later selection survived the filter of every earlier one. -/
theorem greedy_pairwise (boxes : List (List ℚ)) (t : ℚ) :
    ∀ (budget : ℕ) (l : List ℕ), (Nanodet.greedy boxes t budget l).Pairwise
      (fun i j => Nanodet.iou (boxes.getD i []) (boxes.getD j []) < t) := by
  intro budget
  induction budget with
  | zero => intro l; simp [Nanodet.greedy]
  | succ n ih =>
    intro l
    cases l with
    | nil => simp [Nanodet.greedy]
    | cons i rest =>
      simp only [Nanodet.greedy]
      refine List.Pairwise.cons (fun j hj => ?_) (ih _)
      have hmem := greedy_subset boxes t n _ hj
      have hpred := List.of_mem_filter hmem
      exact of_decide_eq_true hpred

/-- `nonMaxSuppression` returns at most `maxResults` indices. -/
theorem nonMaxSuppression_length_le (boxes : List (List ℚ)) (scores : List ℚ)
    (maxResults : ℕ) (t c : ℚ) :
    (Nanodet.nonMaxSuppression boxes scores maxResults t c).length ≤ maxResults := by
  simp only [Nanodet.nonMaxSuppression]
  exact greedy_length_le boxes t maxResults _

/-- Any two indices selected by `nonMaxSuppression`, in selection order, have IoU
below the threshold. -/
theorem nonMaxSuppression_pairwise (boxes : List (List ℚ)) (scores : List ℚ)
    (maxResults : ℕ) (t c : ℚ) :
    (Nanodet.nonMaxSuppression boxes scores maxResults t c).Pairwise
      (fun i j => Nanodet.iou (boxes.getD i []) (boxes.getD j []) < t) := by
  simp only [Nanodet.nonMaxSuppression]
  exact greedy_pairwise boxes t maxResults _

/-- Keeping the candidates at a set of positions and sorting yields no more
elements than there are positions: distinct kept positions inject into `idx`. -/
theorem keepSorted_length_le (l : List Nanodet.Candidate) (idx : List ℕ) :
    (List.insertionSort Nanodet.scoreGE
      ((l.enum.filter fun p => decide (p.1 ∈ idx)).map Prod.snd)).length ≤ idx.length := by
  rw [(List.perm_insertionSort Nanodet.scoreGE _).length_eq, List.length_map]
  have hnd : ((l.enum.filter fun p => decide (p.1 ∈ idx)).map Prod.fst).Nodup := by
    refine List.Nodup.sublist ((List.filter_sublist _).map Prod.fst) ?_
    rw [List.enum_map_fst]
    exact List.nodup_range _
  have hsub : ((l.enum.filter fun p => decide (p.1 ∈ idx)).map Prod.fst) ⊆ idx := by
    intro x hx
    rw [List.mem_map] at hx
    obtain ⟨p, hp, rfl⟩ := hx
    simpa using List.of_mem_filter hp
  have hle := (List.subperm_of_subset hnd hsub).length_le
  rw [List.length_map] at hle
  exact hle

/-- If the kept positions are pairwise below the IoU threshold on the candidates'
normalized boxes, so are the kept candidates after the descending-score sort. -/
theorem keepSorted_pairwise_iou (l : List Nanodet.Candidate) (idx : List ℕ) (t : ℚ)
    (hidx : idx.Pairwise (fun i j =>
      Nanodet.iou ((l.map fun c => c.boxRaw).getD i []) ((l.map fun c => c.boxRaw).getD j [])
        < t)) :
    List.Pairwise (fun a b : Nanodet.Candidate => Nanodet.iou a.boxRaw b.boxRaw < t)
      (List.insertionSort Nanodet.scoreGE
        ((l.enum.filter fun p => decide (p.1 ∈ idx)).map Prod.snd)) := by
  have hsymm : Symmetric (fun a b : Nanodet.Candidate => Nanodet.iou a.boxRaw b.boxRaw < t) := by
    intro a b h
    rw [iou_comm]
    exact h
  rw [(List.perm_insertionSort Nanodet.scoreGE _).pairwise_iff (fun h => hsymm h)]
  rw [List.pairwise_map]
  have hforall := hidx.forall (by
    intro i j h
    rw [iou_comm]
    exact h)
  have hne : (l.enum.filter fun p => decide (p.1 ∈ idx)).Pairwise (fun p q => p.1 ≠ q.1) := by
    refine List.Pairwise.filter _ ?_
    refine List.pairwise_map.mp ?_
    rw [List.enum_map_fst]
    exact List.nodup_range _
  refine hne.imp_of_mem ?_
  intro p q hp hq hpq
  have hpe := List.mem_of_mem_filter hp
  have hqe := List.mem_of_mem_filter hq
  have hpi : p.1 ∈ idx := by simpa using List.of_mem_filter hp
  have hqi : q.1 ∈ idx := by simpa using List.of_mem_filter hq
  have hbp : (l.map fun c => c.boxRaw).getD p.1 [] = p.2.boxRaw := by
    rw [List.getD_eq_getElem?_getD, List.getElem?_map, List.mem_enum_iff_getElem?.mp hpe]
    rfl
  have hbq : (l.map fun c => c.boxRaw).getD q.1 [] = q.2.boxRaw := by
    rw [List.getD_eq_getElem?_getD, List.getElem?_map, List.mem_enum_iff_getElem?.mp hqe]
    rfl
  have := hforall hpi hqi hpq
  rw [hbp, hbq] at this
  exact this

/-- C3: suppressor postconditions.  For every candidate list, the suppression
stage (`tf.image.nonMaxSuppressionAsync` followed by the source's filter-and-sort)
returns at most `maxResults` candidates, sorted by descending score, with every
pair of survivors strictly below the IoU threshold; and on an empty candidate
list it returns the empty list. -/
theorem nanodet_suppress_spec (results : List Nanodet.Candidate) (maxResults : ℕ)
    (iouThreshold minConfidence : ℚ) :
    (Nanodet.suppress results maxResults iouThreshold minConfidence).length ≤ maxResults ∧
    List.Pairwise (fun a b : Nanodet.Candidate => b.score ≤ a.score)
      (Nanodet.suppress results maxResults iouThreshold minConfidence) ∧
    List.Pairwise (fun a b : Nanodet.Candidate =>
        Nanodet.iou a.boxRaw b.boxRaw < iouThreshold)
      (Nanodet.suppress results maxResults iouThreshold minConfidence) ∧
    Nanodet.suppress [] maxResults iouThreshold minConfidence = [] := by
  refine ⟨?_, ?_, ?_, ?_⟩
  · simp only [Nanodet.suppress]
    refine le_trans (keepSorted_length_le _ _) ?_
    split
    · exact nonMaxSuppression_length_le _ _ _ _ _
    · simp
  · simp only [Nanodet.suppress]
    exact List.sorted_insertionSort Nanodet.scoreGE _
  · simp only [Nanodet.suppress]
    refine keepSorted_pairwise_iou _ _ _ ?_
    split
    · exact nonMaxSuppression_pairwise _ _ _ _ _
    · exact List.Pairwise.nil
  · rfl
